import Mathlib

/-!
Shallow embedding of `src/main.py` (the Tethys paper scraper) and proofs
about it.

The program has three layers:
* `scrape_all_papers` (Category Walker): iterates the fixed tag/subtag
  taxonomy, paginates each subtag, and writes per-subtag and per-tag CSVs;
* `scrape_page` (Page Extractor): fetches one listing page's paper table
  and merges in a link column;
* `scrape_page_urls` (Link Extractor): fetches the raw listing HTML, walks
  its publication anchors, and resolves each anchor's outbound source link.

External collaborators (HTTP transport, HTML parsing, pandas dataframes)
are modelled explicitly:
* the network is a `Web` record of three lookup functions, one per kind of
  request the code performs (`pd.read_html`, `urllib.request.urlopen` on a
  listing page, `urllib.request.urlopen` on a publication detail page);
  `none` stands for the transport raising `urllib.error.HTTPError`, the
  only transport exception the code ever catches;
* a pandas dataframe is a `Df` (column names plus rows of cells);
  `pd.concat` along each axis is modelled from pandas' documented
  behaviour: `None` entries in the input list are dropped silently, and
  axis-0 concatenation with `sort=False` takes the union of the columns in
  first-seen order, filling missing cells with NaN (rendered "NaN" here);
* Python exceptions are the `PyErr` error component of `Except`;
* the unbounded `while True` pagination loop takes a fuel parameter; fuel
  exhaustion is the distinguished outcome `Err.fuel`, never confused with
  a Python-level exception `Err.py e`.
-/

deriving instance DecidableEq for Except

/-- Python exception kinds the program can raise or catch:
`urllib.error.HTTPError`, `ValueError` (from `list.index` or pandas), and
`IndexError` (from sequence subscripts). -/
inductive PyErr
  | httpError
  | valueError
  | indexError
deriving DecidableEq

/-- Outcome tag for the embedded runner: an escaped Python exception, or
exhaustion of the fuel that bounds the unbounded pagination loop. -/
inductive Err
  | py (e : PyErr)
  | fuel
deriving DecidableEq

/-- One HTML table as parsed by `pd.read_html`: its column count and its
rows of cells (pandas tables are rectangular: every row has `ncols`
cells). -/
structure Table where
  ncols : Nat
  rows : List (List String)
deriving DecidableEq

/-- One anchor (`<a>`) element of a publication detail page: its visible
text and its `href` attribute (absent when the anchor has no `href`). -/
structure Anchor where
  text : String
  href : Option String
deriving DecidableEq

/-- A parsed publication detail page: its anchors in document order. -/
structure DetailPage where
  anchors : List Anchor
deriving DecidableEq

/-- A pandas dataframe: column names and rows of cells. -/
structure Df where
  cols : List String
  rows : List (List String)
deriving DecidableEq

/-- One `DataFrame.to_csv(path, sep="\t", index=False)` call: the file
path and the dataframe written there (header row = `df.cols`). -/
structure FileWrite where
  path : String
  df : Df
deriving DecidableEq

/-- Warnings the program logs via `logger.warning`. -/
inductive Warn
  | multipleTables (url : String)
  | noSourceLink (url : String)
deriving DecidableEq

/-- The network, as seen through the three kinds of request the code
makes.  `none` models `urllib.error.HTTPError` being raised.
* `pageTables url`: `pd.read_html(url, match="Title")`'s raw material —
  the tables on the page whose text matches "Title", in document order
  (pandas raises `ValueError` "No tables found" when this list is empty);
* `pageAnchors url`: the hrefs of the anchors on the listing page whose
  `href` matches the regex "/publications/", in document order (the
  `soup.findAll` result of the Link Extractor);
* `detail url`: the parsed publication detail page at `url`.
`pageTables` and `pageAnchors` are separate fields because the code
fetches the same listing URL twice (once through `pd.read_html`, once
through `urllib.request.urlopen`), and the two requests can fail
independently. -/
structure Web where
  pageTables : String → Option (List Table)
  pageAnchors : String → Option (List String)
  detail : String → Option DetailPage

/-- Line 31: the fixed column schema assigned to a fetched paper table.
Note it has 7 names; `paper_url` is not among them. -/
def TABLE_COLUMNS : List String :=
  ["title", "authors", "date", "content_type", "technology_type", "stressor", "receptor"]

/-- Line 32: `TETHYS_URL.format(a, b, c)` for the template
`"https://tethys.pnnl.gov{}{}{}"`. -/
def tethysUrl (a b c : String) : String :=
  "https://tethys.pnnl.gov" ++ a ++ b ++ c

/-- Lines 33-47: the hardcoded taxonomy, in declared (insertion) order. -/
def TETHYS_TAG_SUBTAG : List (String × List String) :=
  [("stressor", ["chemicals", "dynamic-device", "emf", "energy-removal",
      "lighting", "noise", "static-device"]),
   ("receptor", ["bats", "benthic-invertebrates", "birds", "ground-nesting-birds",
      "passerines", "raptors", "seabirds", "shorebirds", "waterfowl",
      "ecosystem", "fish", "marine-mammals", "sea-turtles",
      "terrestrial-mammals", "farfield-environment", "nearfield-habitat",
      "socio-economics", "aesthetics", "climate-change", "fishing",
      "legal-and-policy", "navigation", "recreation", "stakeholder-engagement"]),
   ("technology-type", ["marine-energy-general", "riverine", "ocean-current",
      "otec", "salinity-gradient", "tidal", "wave", "wind-energy-general",
      "land-based-wind", "offshore-wind"]),
   ("interactions", ["attraction", "avoidance", "changes-sediment-transport",
      "changes-water-quality", "collisionevasion", "entrapment"])]

/-- Lines 95-96 (Page Extractor): the listing-page URL built by
`scrape_page` — `TETHYS_URL.format("/" + tag, "/" + subtag, suffix)` with
suffix `"?page={pagenum}"` when `pagenum > 0`, else empty. -/
def scrape_page_url (tag subtag : String) (pagenum : Nat) : String :=
  tethysUrl ("/" ++ tag) ("/" ++ subtag)
    (if pagenum > 0 then "?page=" ++ toString pagenum else "")

/-- Lines 145-146 (Link Extractor): the listing-page URL built by
`scrape_page_urls`; textually the same computation as lines 95-96. -/
def scrape_page_urls_url (tag subtag : String) (pagenum : Nat) : String :=
  tethysUrl ("/" ++ tag) ("/" ++ subtag)
    (if pagenum > 0 then "?page=" ++ toString pagenum else "")

/-- Cell lookup used to model axis-0 `pd.concat`: the value of column `c`
in a row `r` that was laid out according to column list `cols` (the cell
at the first position where `cols` holds `c`); "NaN" when the column is
absent or the row is too short. -/
def cellOf (cols r : List String) (c : String) : String :=
  match cols, r with
  | [], _ => "NaN"
  | _ :: _, [] => "NaN"
  | c0 :: cs, v :: vs => if c0 = c then v else cellOf cs vs c

/-- `pd.concat([a, b], sort=False)` (axis 0, pandas semantics): columns
are `a`'s followed by `b`'s new ones in first-seen order; rows are `a`'s
rows then `b`'s rows, each realigned to the combined columns with NaN for
missing cells.  Row order is preserved. -/
def concatAxis0 (a b : Df) : Df :=
  let newCols := b.cols.filter (fun c => ¬ a.cols.contains c)
  let cols := a.cols ++ newCols
  { cols := cols
  , rows := a.rows.map (fun r => r ++ newCols.map (fun _ => "NaN"))
      ++ b.rows.map (fun r => cols.map (fun c => cellOf b.cols r c)) }

/-- A row padded/truncated to exactly `n` cells, with "NaN" for missing
cells (index alignment of `pd.concat` along axis 1). -/
def padTo (n : Nat) (r : List String) : List String :=
  (List.range n).map (fun j => (r.get? j).getD "NaN")

/-- Axis-1 alignment of table rows with the link series: outer join on
the default RangeIndex, so the result has `max` many rows and missing
cells become NaN. -/
def alignRows (ncols : Nat) (rows : List (List String)) (links : List String) :
    List (List String) :=
  (List.range (max rows.length links.length)).map
    (fun i => padTo ncols ((rows.get? i).getD []) ++ [(links.get? i).getD "NaN"])

/-- Line 131: `pd.concat([page_df, urls], axis=1, sort=False)`.  When
`urls` is `None` (the Link Extractor failed on the listing fetch), pandas
drops the `None` entry silently and the result is `page_df` unchanged;
otherwise the series named `paper_url` is appended as a new column,
aligned by position. -/
def concatAxis1 (df : Df) (urls : Option (List String)) : Df :=
  match urls with
  | none => df
  | some links =>
    { cols := df.cols ++ ["paper_url"]
    , rows := alignRows df.cols.length df.rows links }

/-- `soup.find('a', href=True, text=txt)['href']` (lines 171 and 175):
the `href` of the first anchor whose `href` attribute is present and
whose visible text is exactly `txt`; `none` when `find` returns `None`
(in which case the subscript raises `TypeError`, which the code
catches). -/
def findSourceAnchor (soup : DetailPage) (txt : String) : Option String :=
  (soup.anchors.find? (fun a => a.href.isSome && a.text == txt)).bind Anchor.href

/-- Lines 167-181, the body of the per-anchor loop of the Link Extractor:
resolve one publication detail page to its outbound link.  Precedence:
an anchor with text "External Link", else one with text "Access File",
else the detail-page URL itself with a warning.  Returns the link and
the warnings logged. -/
def resolveDetailLink (tethys_pub_link : String) (soup : DetailPage) :
    String × List Warn :=
  match findSourceAnchor soup "External Link" with
  | some h => (h, [])
  | none =>
    match findSourceAnchor soup "Access File" with
    | some h => (h, [])
    | none => (tethys_pub_link, [Warn.noSourceLink tethys_pub_link])

/-- Lines 160-181: the loop over publication anchors.  Each anchor's
detail page is fetched by `urllib.request.urlopen` at line 165 — a call
that is NOT inside any try block, so a transport error there escapes as
an exception.  On success, one resolved link is appended per anchor, in
order. -/
def urlLoop (web : Web) : List String → Except PyErr (List String) × List Warn
  | [] => (.ok [], [])
  | link_end :: rest =>
    let tethys_pub_link := tethysUrl link_end "" ""
    match web.detail tethys_pub_link with
    | none => (.error .httpError, [])
    | some soup =>
      let r := resolveDetailLink tethys_pub_link soup
      match urlLoop web rest with
      | (.error e, ws) => (.error e, r.2 ++ ws)
      | (.ok ls, ws) => (.ok (r.1 :: ls), r.2 ++ ws)

/-- Lines 135-184, `scrape_page_urls` (Link Extractor).  The listing
fetch (line 150) has its `HTTPError` caught and turned into a `None`
return (modelled `.ok none`); detail-page fetch errors escape.  Paired
with the warnings logged along the way. -/
def scrape_page_urls (web : Web) (tag subtag : String) (pagenum : Nat) :
    Except PyErr (Option (List String)) × List Warn :=
  let page_url := scrape_page_urls_url tag subtag pagenum
  match web.pageAnchors page_url with
  | none => (.ok none, [])
  | some hrefs =>
    match urlLoop web hrefs with
    | (.error e, ws) => (.error e, ws)
    | (.ok ls, ws) => (.ok (some ls), ws)

/-- Lines 87-133, `scrape_page` (Page Extractor).  `pd.read_html`'s
`HTTPError` and the empty-match `ValueError` are caught and become a
`None` return; a column-count mismatch on the schema assignment (line
120) also becomes `None`; with more than one matching table a warning is
logged and the first is used; finally the link series is merged in along
axis 1.  Paired with the warnings logged. -/
def scrape_page (web : Web) (tag subtag : String) (pagenum : Nat) :
    Except PyErr (Option Df) × List Warn :=
  let tag_subtag_url := scrape_page_url tag subtag pagenum
  match web.pageTables tag_subtag_url with
  | none => (.ok none, [])
  | some [] => (.ok none, [])
  | some (tb :: ts) =>
    let warns := if 1 < (tb :: ts).length then [Warn.multipleTables tag_subtag_url] else []
    if tb.ncols = TABLE_COLUMNS.length then
      match scrape_page_urls web tag subtag pagenum with
      | (.error e, ws) => (.error e, warns ++ ws)
      | (.ok urls, ws) =>
        (.ok (some (concatAxis1 { cols := TABLE_COLUMNS, rows := tb.rows } urls)),
          warns ++ ws)
    else
      (.ok none, warns)

/-- The Page Extractor's returned value (first component; the warnings go
to the logger, which the Category Walker does not inspect). -/
def pageOutcome (web : Web) (tag subtag : String) (pagenum : Nat) :
    Except PyErr (Option Df) :=
  (scrape_page web tag subtag pagenum).1

/-- Line 57/60: `pd.DataFrame(columns=TABLE_COLUMNS)` — the empty
accumulator dataframe. -/
def emptyDf : Df := { cols := TABLE_COLUMNS, rows := [] }

/-- Lines 62-73: the `while True` pagination loop for one subtag.  Takes
fuel (first argument) to stay total; also records the page indices
fetched, in order, as its trace.  The loop fetches page `pagenum`, stops
returning the accumulator when the Page Extractor yields no result,
propagates an escaped exception, and otherwise merges the page and
continues with `pagenum + 1`. -/
def subtagLoop (web : Web) (tag subtag : String) :
    Nat → Nat → Df → List Nat → Except Err (Df × List Nat)
  | 0, _, _, _ => .error .fuel
  | fuel + 1, pagenum, acc, fetched =>
    match pageOutcome web tag subtag pagenum with
    | .error e => .error (.py e)
    | .ok none => .ok (acc, fetched ++ [pagenum])
    | .ok (some page_df) =>
      subtagLoop web tag subtag fuel (pagenum + 1) (concatAxis0 acc page_df)
        (fetched ++ [pagenum])

/-- Lines 58-80: the loop over one tag's subtags.  For each subtag the
pagination loop runs from page 0 with a fresh empty accumulator; the
subtag dataframe is written to `"{fpath}{tag}-{subtag}.csv"` and merged
into the tag accumulator. -/
def processSubtags (web : Web) (fuel : Nat) (fpath tag : String) :
    List String → Df → List FileWrite → Except Err (Df × List FileWrite)
  | [], tag_df, writes => .ok (tag_df, writes)
  | subtag :: rest, tag_df, writes =>
    match subtagLoop web tag subtag fuel 0 emptyDf [] with
    | .error e => .error e
    | .ok (subtag_df, _) =>
      processSubtags web fuel fpath tag rest (concatAxis0 tag_df subtag_df)
        (writes ++ [{ path := fpath ++ tag ++ "-" ++ subtag ++ ".csv", df := subtag_df }])

/-- Lines 55-84: the loop over tags.  Each tag's dataframe is written to
`"{fpath}{tag}.csv"` after its subtags are processed. -/
def processTags (web : Web) (fuel : Nat) (fpath : String) :
    List (String × List String) → List FileWrite → Except Err (List FileWrite)
  | [], writes => .ok writes
  | (tag, subtags) :: rest, writes =>
    match processSubtags web fuel fpath tag subtags emptyDf writes with
    | .error e => .error e
    | .ok (tag_df, writes2) =>
      processTags web fuel fpath rest
        (writes2 ++ [{ path := fpath ++ tag ++ ".csv", df := tag_df }])

/-- Lines 49-85, `scrape_all_papers` (Category Walker): walk the whole
hardcoded taxonomy and return the ordered list of file writes together
with the function's unconditional `True` result. -/
def scrape_all_papers (web : Web) (fuel : Nat) (fpath : String) :
    Except Err (List FileWrite × Bool) :=
  match processTags web fuel fpath TETHYS_TAG_SUBTAG [] with
  | .error e => .error e
  | .ok writes => .ok (writes, true)

/-- Python `list.index`, minus the exception: index of the first
occurrence, `none` when absent (where Python raises `ValueError`). -/
def pyIndex (xs : List String) (x : String) : Option Nat :=
  match xs with
  | [] => none
  | y :: ys => if y = x then some 0 else (pyIndex ys x).map (· + 1)

/-- Line 215: the hardcoded folder path that overwrites the parsed
`-folderpath` value just before `scrape_all_papers` is called. -/
def HARDCODED_FPATH : String := "/Users/openamiguel/Desktop/tethys/"

/-- Lines 189-215 of `main`, up to the `scrape_all_papers` call: parse
`sys.argv`.  `prompts.index(flag)` raises `ValueError` when the flag is
absent; `prompts[i+1]` raises `IndexError` past the end; `s[-1]` raises
`IndexError` on an empty string.  The slash-stripping of the log
directory (line 191) and the slash-appending to the folder path (line
213) are pure string massages whose only observable effect is the
`IndexError` on an empty value, which is kept; the massaged log directory
feeds only the logger (external), and the massaged folder path is
discarded by the reassignment `fpath = "/Users/openamiguel/Desktop/tethys/"`
at line 215, so on success the function always yields the hardcoded
path. -/
def mainFpath (argv : List String) : Except PyErr String :=
  match pyIndex argv "-logpath" with
  | none => .error .valueError
  | some i =>
    match argv[i + 1]? with
    | none => .error .indexError
    | some logdir =>
      if logdir = "" then .error .indexError
      else
        match pyIndex argv "-folderpath" with
        | none => .error .valueError
        | some j =>
          match argv[j + 1]? with
          | none => .error .indexError
          | some fp =>
            if fp = "" then .error .indexError
            else .ok HARDCODED_FPATH

/-- Lines 186-218, `main`: parse the arguments, then run the Category
Walker on the (hardcoded) folder path.  A parse error means `main` raised
before any page was fetched or any output file written — the walker's
write list exists only in the `.ok` outcome. -/
def mainRun (web : Web) (fuel : Nat) (argv : List String) :
    Except Err (List FileWrite × Bool) :=
  match mainFpath argv with
  | .error e => .error (.py e)
  | .ok fpath => scrape_all_papers web fuel fpath

/-- Column-shape invariant of every dataframe the walker handles: either
the bare 7-name metadata schema (no link column merged yet, or the link
merge was dropped), or the schema extended with `paper_url`. -/
def colsOk (d : Df) : Prop :=
  d.cols = TABLE_COLUMNS ∨ d.cols = TABLE_COLUMNS ++ ["paper_url"]

/-- A detail page has an anchor with an `href` attribute and visible text
exactly `txt`. -/
def hasSource (soup : DetailPage) (txt : String) : Prop :=
  ∃ a ∈ soup.anchors, a.href.isSome ∧ a.text = txt

instance hasSourceDecidable (soup : DetailPage) (txt : String) :
    Decidable (hasSource soup txt) :=
  inferInstanceAs (Decidable (∃ a ∈ soup.anchors, a.href.isSome ∧ a.text = txt))

/-- Shape invariant used to characterize row order through the walker's
merges: a dataframe is either a still-empty 7-column accumulator, or a
fully merged 8-column frame with rectangular rows. -/
def dfInv (d : Df) : Prop :=
  (d.cols = TABLE_COLUMNS ∧ d.rows = []) ∨
  (d.cols = TABLE_COLUMNS ++ ["paper_url"] ∧ ∀ r ∈ d.rows, r.length = 8)

/-- The subtag dataframe determined by a list of page dataframes: the
pagination loop's accumulator after merging them in page order. -/
def subtagDfOf (pages : List Df) : Df := pages.foldl concatAxis0 emptyDf

/-- The tag dataframe determined by per-subtag page lists `D`: the
subtag dataframes merged in subtag-list order. -/
def tagDfOf (D : String → List Df) (subs : List String) : Df :=
  subs.foldl (fun acc s => concatAxis0 acc (subtagDfOf (D s))) emptyDf

/-- The per-subtag file writes one tag contributes, in subtag order. -/
def subtagWritesOf (D : String → List Df) (fpath tag : String)
    (subs : List String) : List FileWrite :=
  subs.map (fun s =>
    { path := fpath ++ tag ++ "-" ++ s ++ ".csv", df := subtagDfOf (D s) })

/-! ## Concrete worlds used by counterexamples and witnesses -/

/-- A dead network: every request raises `HTTPError`. -/
def siteEmpty : Web where
  pageTables := fun _ => none
  pageAnchors := fun _ => none
  detail := fun _ => none

/-- A 7-cell table row used in the concrete worlds below. -/
def demoRow7 : List String := ["a", "b", "c", "d", "e", "f", "g"]

/-- A site whose only live page is stressor/chemicals page 0: one
7-column one-row table, one publication anchor whose detail page offers
an "External Link" anchor.  Every other request raises. -/
def siteOnePaper : Web where
  pageTables := fun u =>
    if u = scrape_page_url "stressor" "chemicals" 0 then some [⟨7, [demoRow7]⟩] else none
  pageAnchors := fun u =>
    if u = scrape_page_urls_url "stressor" "chemicals" 0 then some ["/publications/x"] else none
  detail := fun u =>
    if u = tethysUrl "/publications/x" "" "" then
      some ⟨[⟨"External Link", some "http://ext"⟩]⟩
    else none

/-- Like `siteOnePaper`, but the detail-page fetch raises `HTTPError`. -/
def siteDetailDown : Web where
  pageTables := fun u =>
    if u = scrape_page_url "stressor" "chemicals" 0 then some [⟨7, [demoRow7]⟩] else none
  pageAnchors := fun u =>
    if u = scrape_page_urls_url "stressor" "chemicals" 0 then some ["/publications/x"] else none
  detail := fun _ => none

/-- Like `siteOnePaper`, but the Link Extractor's listing fetch raises
`HTTPError` while `pd.read_html`'s fetch of the same URL succeeds. -/
def siteAnchorsDown : Web where
  pageTables := fun u =>
    if u = scrape_page_url "stressor" "chemicals" 0 then some [⟨7, [demoRow7]⟩] else none
  pageAnchors := fun _ => none
  detail := fun _ => none

/-- A site whose receptor/bats page 0 carries TWO tables matching
"Title": a 7-column paper table first, then an unrelated 3-column one.
The anchors fetch raises, so the accepted page keeps the 7 columns. -/
def siteTwoTables : Web where
  pageTables := fun u =>
    if u = scrape_page_url "receptor" "bats" 0 then
      some [⟨7, [demoRow7]⟩, ⟨3, [["x", "y", "z"]]⟩]
    else none
  pageAnchors := fun _ => none
  detail := fun _ => none

/-- The page result `siteTwoTables` yields: the FIRST table's rows under
the 7-column schema (no link column: the anchors fetch failed). -/
def dfTwoTables : Df := { cols := TABLE_COLUMNS, rows := [demoRow7] }

/-- A site whose stressor/chemicals page 0 carries one matching table
with 8 columns. -/
def siteEightCols : Web where
  pageTables := fun u =>
    if u = scrape_page_url "stressor" "chemicals" 0 then
      some [⟨8, [demoRow7 ++ ["h"]]⟩]
    else none
  pageAnchors := fun _ => none
  detail := fun _ => none

/-- A detail page carrying both recognized anchor labels. -/
def soupBoth : DetailPage :=
  ⟨[⟨"Access File", some "file.pdf"⟩, ⟨"External Link", some "http://e"⟩]⟩

/-- A detail page with an "Access File" anchor but no "External Link". -/
def soupAccess : DetailPage :=
  ⟨[⟨"other", some "x"⟩, ⟨"Access File", some "file.pdf"⟩]⟩

/-- A detail page with no recognized source anchor. -/
def soupNone : DetailPage := ⟨[⟨"other", none⟩]⟩

/-- A site whose stressor/noise listing has two publication anchors, the
first resolving through "External Link", the second falling back to its
own detail URL. -/
def siteTwoAnchors : Web where
  pageTables := fun _ => none
  pageAnchors := fun u =>
    if u = scrape_page_urls_url "stressor" "noise" 0 then
      some ["/publications/a", "/publications/b"]
    else none
  detail := fun u =>
    if u = tethysUrl "/publications/a" "" "" then some soupBoth
    else if u = tethysUrl "/publications/b" "" "" then some soupNone
    else none

/-- A site with three consecutive listing pages for
interactions/attraction — the middle one a well-formed table with ZERO
rows — and nothing else.  Pagination must run 0,1,2 and stop at 3. -/
def siteThreePages : Web where
  pageTables := fun u =>
    if u = scrape_page_url "interactions" "attraction" 0 then some [⟨7, [demoRow7]⟩]
    else if u = scrape_page_url "interactions" "attraction" 1 then some [⟨7, []⟩]
    else if u = scrape_page_url "interactions" "attraction" 2 then some [⟨7, [demoRow7]⟩]
    else none
  pageAnchors := fun _ => none
  detail := fun _ => none

/-- The page dataframes `siteOnePaper` yields per (tag, subtag) pair: one
fully merged single-row page for stressor/chemicals, none elsewhere. -/
def D2W : String → String → List Df := fun t s =>
  if t = "stressor" ∧ s = "chemicals" then
    [{ cols := TABLE_COLUMNS ++ ["paper_url"], rows := [demoRow7 ++ ["http://ext"]] }]
  else []

/-! ## Helper lemmas -/

theorem pyIndex_eq_none (xs : List String) (x : String) (h : x ∉ xs) :
    pyIndex xs x = none := by
  induction xs with
  | nil => rfl
  | cons y ys ih =>
    simp only [List.mem_cons, not_or] at h
    have hyx : ¬ (y = x) := fun hyx => h.1 hyx.symm
    simp [pyIndex, hyx, ih h.2]

theorem mainFpath_ok (argv : List String) (p : String)
    (h : mainFpath argv = .ok p) : p = HARDCODED_FPATH := by
  unfold mainFpath at h
  repeat' split at h
  all_goals simp_all

theorem urls_url_eq (tag subtag : String) (pagenum : Nat) :
    scrape_page_urls_url tag subtag pagenum = scrape_page_url tag subtag pagenum := rfl

/-! ## Claims -/

/-- Claim C5 (confirmed): for every tag, subtag and page index, the page
URL built by the Page Extractor (lines 95-96) equals the base URL + "/" +
tag + "/" + subtag, with no suffix at page index 0 and suffix
"?page={index}" for index ≥ 1; and the Link Extractor (lines 145-146)
builds the identical URL string for the same triple. -/
theorem C5_page_url_scheme (tag subtag : String) (pagenum : Nat) :
    scrape_page_url tag subtag pagenum =
      "https://tethys.pnnl.gov" ++ "/" ++ tag ++ "/" ++ subtag ++
        (if pagenum = 0 then "" else "?page=" ++ toString pagenum) ∧
    scrape_page_urls_url tag subtag pagenum = scrape_page_url tag subtag pagenum := by
  refine ⟨?_, rfl⟩
  unfold scrape_page_url tethysUrl
  cases pagenum with
  | zero =>
    rw [if_neg (by decide), if_pos rfl]
    simp only [String.append_assoc]
  | succ n =>
    rw [if_pos (Nat.succ_pos n), if_neg (Nat.succ_ne_zero n)]
    simp only [String.append_assoc]

/-- Claim C3 (confirmed): the value supplied to the `-folderpath` flag
never influences where output files are written.  For two argument lists
that differ only in the `-folderpath` value, whenever `main`'s parsing
phase completes, the Category Walker receives the same folder path — the
hardcoded `/Users/openamiguel/Desktop/tethys/` of line 215 — and the two
runs produce identical file writes. -/
theorem C3_folderpath_flag_ignored (pre post : List String) (v1 v2 : String)
    (web : Web) (fuel : Nat) (p1 p2 : String)
    (h1 : mainFpath (pre ++ "-folderpath" :: v1 :: post) = .ok p1)
    (h2 : mainFpath (pre ++ "-folderpath" :: v2 :: post) = .ok p2) :
    p1 = p2 ∧ p1 = HARDCODED_FPATH ∧
      mainRun web fuel (pre ++ "-folderpath" :: v1 :: post) =
        mainRun web fuel (pre ++ "-folderpath" :: v2 :: post) := by
  have e1 := mainFpath_ok _ _ h1
  have e2 := mainFpath_ok _ _ h2
  subst e1
  refine ⟨e2.symm, rfl, ?_⟩
  simp only [mainRun, h1, h2, e2]

/-- Witness for C3 at concrete inputs: two invocations differing only in
the `-folderpath` value both hand the walker the hardcoded path. -/
theorem C3_folderpath_flag_ignored_witness :
    mainFpath (["prog", "-logpath", "L"] ++ "-folderpath" :: "A" :: []) =
        .ok HARDCODED_FPATH ∧
    mainFpath (["prog", "-logpath", "L"] ++ "-folderpath" :: "B" :: []) =
        .ok HARDCODED_FPATH ∧
    mainRun siteEmpty 1 (["prog", "-logpath", "L"] ++ "-folderpath" :: "A" :: []) =
      mainRun siteEmpty 1 (["prog", "-logpath", "L"] ++ "-folderpath" :: "B" :: []) := by
  refine ⟨by decide, by decide, ?_⟩
  exact (C3_folderpath_flag_ignored ["prog", "-logpath", "L"] [] "A" "B"
    siteEmpty 1 HARDCODED_FPATH HARDCODED_FPATH (by decide) (by decide)).2.2

/-- Claim C10 (confirmed): if the argument list does not contain the
literal flag `-logpath`, `main` raises `ValueError` (from `list.index`)
before any page is fetched or file written; if it does not contain
`-folderpath`, `main` likewise raises before any fetch or write — a
`ValueError` whenever the `-logpath` part parsed (flag found, followed by
a nonempty value), and in every case some exception.  An `.error` result
of `mainRun` means the walker was never entered: the write list exists
only in the `.ok` outcome. -/
theorem C10_missing_flag_raises (argv : List String) (web : Web) (fuel : Nat) :
    ("-logpath" ∉ argv → mainRun web fuel argv = .error (.py .valueError)) ∧
    ("-folderpath" ∉ argv → ∃ e, mainRun web fuel argv = .error (.py e)) ∧
    ("-folderpath" ∉ argv →
      (∃ i logdir, pyIndex argv "-logpath" = some i ∧
        argv[i + 1]? = some logdir ∧ logdir ≠ "") →
      mainRun web fuel argv = .error (.py .valueError)) := by
  refine ⟨?_, ?_, ?_⟩
  · intro h
    simp only [mainRun, mainFpath, pyIndex_eq_none argv _ h]
  · intro h
    cases hi : pyIndex argv "-logpath" with
    | none => exact ⟨.valueError, by simp only [mainRun, mainFpath, hi]⟩
    | some i =>
      cases hl : argv[i + 1]? with
      | none => exact ⟨.indexError, by simp only [mainRun, mainFpath, hi, hl]⟩
      | some logdir =>
        by_cases hle : logdir = ""
        · exact ⟨.indexError, by simp only [mainRun, mainFpath, hi, hl, if_pos hle]⟩
        · exact ⟨.valueError, by simp only [mainRun, mainFpath, hi, hl, if_neg hle,
            pyIndex_eq_none argv _ h]⟩
  · intro h hlog
    obtain ⟨i, logdir, hi, hl, hle⟩ := hlog
    simp only [mainRun, mainFpath, hi, hl, if_neg hle, pyIndex_eq_none argv _ h]

/-- Witness for C10 at concrete inputs: an argv without `-logpath` and an
argv without `-folderpath` both make `main` raise `ValueError` before the
walker runs. -/
theorem C10_missing_flag_raises_witness :
    ("-logpath" ∉ ["prog", "-folderpath", "F"] ∧
      mainRun siteEmpty 1 ["prog", "-folderpath", "F"] = .error (.py .valueError)) ∧
    ("-folderpath" ∉ ["prog", "-logpath", "L"] ∧
      mainRun siteEmpty 1 ["prog", "-logpath", "L"] = .error (.py .valueError)) := by
  constructor
  · exact ⟨by decide,
      (C10_missing_flag_raises ["prog", "-folderpath", "F"] siteEmpty 1).1 (by decide)⟩
  · exact ⟨by decide,
      (C10_missing_flag_raises ["prog", "-logpath", "L"] siteEmpty 1).2.2 (by decide)
        ⟨1, "L", by decide, by decide, by decide⟩⟩

/-! ## Page Extractor case analysis -/

/-- Every run of the Page Extractor ends in one of three shapes: no page
result, an escaped exception, or a merged dataframe built from the FIRST
matching table (with 7 columns) and the link sequence. -/
theorem scrape_page_shape (web : Web) (t s : String) (n : Nat) :
    pageOutcome web t s n = .ok none ∨
    (∃ e, pageOutcome web t s n = .error e) ∨
    (∃ tb ts urls ws, web.pageTables (scrape_page_url t s n) = some (tb :: ts) ∧
      tb.ncols = TABLE_COLUMNS.length ∧
      scrape_page_urls web t s n = (.ok urls, ws) ∧
      pageOutcome web t s n =
        .ok (some (concatAxis1 { cols := TABLE_COLUMNS, rows := tb.rows } urls))) := by
  cases hpt : web.pageTables (scrape_page_url t s n) with
  | none => exact Or.inl (by simp [pageOutcome, scrape_page, hpt])
  | some ts0 =>
    cases ts0 with
    | nil => exact Or.inl (by simp [pageOutcome, scrape_page, hpt])
    | cons tb ts =>
      by_cases hn : tb.ncols = TABLE_COLUMNS.length
      · cases hurl : scrape_page_urls web t s n with
        | mk res ws =>
          cases res with
          | error e =>
            exact Or.inr (Or.inl ⟨e, by simp [pageOutcome, scrape_page, hpt, hn, hurl]⟩)
          | ok urls =>
            exact Or.inr (Or.inr ⟨tb, ts, urls, ws, rfl, hn,
              rfl, by simp [pageOutcome, scrape_page, hpt, hn, hurl]⟩)
      · exact Or.inl (by simp [pageOutcome, scrape_page, hpt, hn])

theorem scrape_page_accepted (web : Web) (t s : String) (n : Nat) (d : Df)
    (h : pageOutcome web t s n = .ok (some d)) :
    ∃ tb ts urls ws, web.pageTables (scrape_page_url t s n) = some (tb :: ts) ∧
      tb.ncols = TABLE_COLUMNS.length ∧
      scrape_page_urls web t s n = (.ok urls, ws) ∧
      d = concatAxis1 { cols := TABLE_COLUMNS, rows := tb.rows } urls := by
  rcases scrape_page_shape web t s n with hsh | ⟨e, hsh⟩ | ⟨tb, ts, urls, ws, h1, h2, h3, h4⟩
  · rw [h] at hsh
    exact absurd hsh (by simp)
  · rw [h] at hsh
    exact absurd hsh (by simp)
  · rw [h] at h4
    exact ⟨tb, ts, urls, ws, h1, h2, h3, by injection h4 with h4; injection h4⟩

theorem concatAxis1_colsOk (rows : List (List String)) (urls : Option (List String)) :
    colsOk (concatAxis1 { cols := TABLE_COLUMNS, rows := rows } urls) := by
  cases urls with
  | none => exact Or.inl rfl
  | some links => exact Or.inr rfl

theorem scrape_page_colsOk (web : Web) (t s : String) (n : Nat) (d : Df)
    (h : pageOutcome web t s n = .ok (some d)) : colsOk d := by
  obtain ⟨tb, ts, urls, ws, _, _, _, hd⟩ := scrape_page_accepted web t s n d h
  rw [hd]
  exact concatAxis1_colsOk tb.rows urls

/-! ## Column-shape invariant of the walker -/

theorem concatAxis0_colsOk (a b : Df) (ha : colsOk a) (hb : colsOk b) :
    colsOk (concatAxis0 a b) := by
  rcases ha with ha | ha <;> rcases hb with hb | hb <;>
    simp only [colsOk, concatAxis0, ha, hb] <;> decide

theorem subtagLoop_colsOk (web : Web) (t s : String) (fuel : Nat) :
    ∀ (pagenum : Nat) (acc : Df) (fetched : List Nat) (d : Df) (tr : List Nat),
    colsOk acc → subtagLoop web t s fuel pagenum acc fetched = .ok (d, tr) → colsOk d := by
  induction fuel with
  | zero =>
    intro pagenum acc fetched d tr _ h
    exact absurd h (by simp [subtagLoop])
  | succ f ih =>
    intro pagenum acc fetched d tr hacc h
    unfold subtagLoop at h
    cases hpo : pageOutcome web t s pagenum with
    | error e => rw [hpo] at h; exact absurd h (by simp)
    | ok o =>
      cases o with
      | none =>
        rw [hpo] at h
        simp only [Except.ok.injEq, Prod.mk.injEq] at h
        rw [← h.1]
        exact hacc
      | some page_df =>
        rw [hpo] at h
        exact ih (pagenum + 1) (concatAxis0 acc page_df) (fetched ++ [pagenum]) d tr
          (concatAxis0_colsOk acc page_df hacc (scrape_page_colsOk web t s pagenum page_df hpo)) h

theorem processSubtags_colsOk (web : Web) (fuel : Nat) (fpath tag : String) :
    ∀ (subs : List String) (tag_df : Df) (writes : List FileWrite)
      (d : Df) (ws : List FileWrite),
    colsOk tag_df → (∀ fw ∈ writes, colsOk fw.df) →
    processSubtags web fuel fpath tag subs tag_df writes = .ok (d, ws) →
    colsOk d ∧ ∀ fw ∈ ws, colsOk fw.df := by
  intro subs
  induction subs with
  | nil =>
    intro tag_df writes d ws hacc hws h
    simp only [processSubtags, Except.ok.injEq, Prod.mk.injEq] at h
    rw [← h.1, ← h.2]
    exact ⟨hacc, hws⟩
  | cons s rest ih =>
    intro tag_df writes d ws hacc hws h
    unfold processSubtags at h
    cases hsl : subtagLoop web tag s fuel 0 emptyDf [] with
    | error e => rw [hsl] at h; exact absurd h (by simp)
    | ok p =>
      obtain ⟨subtag_df, tr⟩ := p
      rw [hsl] at h
      have hsd : colsOk subtag_df :=
        subtagLoop_colsOk web tag s fuel 0 emptyDf [] subtag_df tr (Or.inl rfl) hsl
      refine ih (concatAxis0 tag_df subtag_df) _ d ws
        (concatAxis0_colsOk tag_df subtag_df hacc hsd) ?_ h
      intro fw hfw
      rcases List.mem_append.mp hfw with hfw | hfw
      · exact hws fw hfw
      · rw [List.mem_singleton.mp hfw]
        exact hsd

theorem processTags_colsOk (web : Web) (fuel : Nat) (fpath : String) :
    ∀ (pairs : List (String × List String)) (writes : List FileWrite)
      (ws : List FileWrite),
    (∀ fw ∈ writes, colsOk fw.df) →
    processTags web fuel fpath pairs writes = .ok ws →
    ∀ fw ∈ ws, colsOk fw.df := by
  intro pairs
  induction pairs with
  | nil =>
    intro writes ws hws h
    simp only [processTags, Except.ok.injEq] at h
    rw [← h]
    exact hws
  | cons p rest ih =>
    intro writes ws hws h
    obtain ⟨tag, subs⟩ := p
    unfold processTags at h
    cases hps : processSubtags web fuel fpath tag subs emptyDf writes with
    | error e => rw [hps] at h; exact absurd h (by simp)
    | ok q =>
      obtain ⟨tag_df, writes2⟩ := q
      rw [hps] at h
      obtain ⟨htd, hw2⟩ := processSubtags_colsOk web fuel fpath tag subs emptyDf writes
        tag_df writes2 (Or.inl rfl) hws hps
      refine ih _ ws ?_ h
      intro fw hfw
      rcases List.mem_append.mp hfw with hfw | hfw
      · exact hw2 fw hfw
      · rw [List.mem_singleton.mp hfw]
        exact htd

theorem scrape_all_colsOk (web : Web) (fuel : Nat) (fpath : String)
    (ws : List FileWrite) (b : Bool)
    (h : scrape_all_papers web fuel fpath = .ok (ws, b)) :
    ∀ fw ∈ ws, colsOk fw.df := by
  unfold scrape_all_papers at h
  cases hpt : processTags web fuel fpath TETHYS_TAG_SUBTAG [] with
  | error e => rw [hpt] at h; exact absurd h (by simp)
  | ok writes =>
    rw [hpt] at h
    simp only [Except.ok.injEq, Prod.mk.injEq] at h
    rw [← h.1]
    exact processTags_colsOk web fuel fpath TETHYS_TAG_SUBTAG [] writes (by simp) hpt

/-- Claim C1 (corrected).  The fixed schema the Page Extractor assigns to
an accepted table is the SEVEN metadata columns of `TABLE_COLUMNS`
(line 120); a fetched table whose column count differs from 7 is rejected
(absent result) and never merged; the `paper_url` column is appended
afterwards by the axis-1 link merge, so an accepted page result carries
either the 7 metadata columns (when the link sequence was absent) or
those 7 followed by `paper_url` — the 8 names in declared order; and
every output file's header row is one of those two column lists. -/
theorem C1_seven_column_schema :
    (TABLE_COLUMNS.length = 7 ∧
      TABLE_COLUMNS ++ ["paper_url"] =
        ["title", "authors", "date", "content_type", "technology_type",
         "stressor", "receptor", "paper_url"]) ∧
    (∀ web t s n tb ts, web.pageTables (scrape_page_url t s n) = some (tb :: ts) →
      tb.ncols ≠ TABLE_COLUMNS.length → pageOutcome web t s n = .ok none) ∧
    (∀ web t s n d, pageOutcome web t s n = .ok (some d) →
      (∃ tb ts, web.pageTables (scrape_page_url t s n) = some (tb :: ts) ∧
        tb.ncols = TABLE_COLUMNS.length) ∧
      (d.cols = TABLE_COLUMNS ∨ d.cols = TABLE_COLUMNS ++ ["paper_url"])) ∧
    (∀ web fuel fpath ws b, scrape_all_papers web fuel fpath = .ok (ws, b) →
      ∀ fw ∈ ws, fw.df.cols = TABLE_COLUMNS ∨
        fw.df.cols = TABLE_COLUMNS ++ ["paper_url"]) := by
  refine ⟨⟨by decide, by decide⟩, ?_, ?_, ?_⟩
  · intro web t s n tb ts hpt hn
    simp [pageOutcome, scrape_page, hpt, hn]
  · intro web t s n d h
    obtain ⟨tb, ts, urls, ws, h1, h2, _, hd⟩ := scrape_page_accepted web t s n d h
    exact ⟨⟨tb, ts, h1, h2⟩, hd ▸ concatAxis1_colsOk tb.rows urls⟩
  · intro web fuel fpath ws b h
    exact scrape_all_colsOk web fuel fpath ws b h

/-- Witness for C1's amended statement at concrete inputs: an 8-column
table is rejected, and an accepted 7-column table produces a page result
whose columns are the 7 metadata names plus `paper_url`. -/
theorem C1_seven_column_schema_witness :
    pageOutcome siteEightCols "stressor" "chemicals" 0 = .ok none ∧
    (∃ d, pageOutcome siteOnePaper "stressor" "chemicals" 0 = .ok (some d) ∧
      d.cols = TABLE_COLUMNS ++ ["paper_url"]) := by
  constructor
  · exact C1_seven_column_schema.2.1 siteEightCols "stressor" "chemicals" 0
      ⟨8, [demoRow7 ++ ["h"]]⟩ [] (by decide) (by decide)
  · have hd : pageOutcome siteOnePaper "stressor" "chemicals" 0 =
        .ok (some ⟨TABLE_COLUMNS ++ ["paper_url"], [demoRow7 ++ ["http://ext"]]⟩) := by
      decide
    exact ⟨_, hd,
      ((C1_seven_column_schema.2.2.1 siteOnePaper "stressor" "chemicals" 0 _ hd).2).resolve_left
        (by decide)⟩

/-- Counterexample to C1 as stated.  The claim fixes the accepted schema
at 8 columns and demands rejection of every other column count.  On the
code: a fetched table with exactly 8 columns is REJECTED (the column
assignment of line 120 fails for any count other than 7), while a
7-column table — a column count the claim says must be rejected — is
accepted and merged. -/
theorem C1_eight_column_claim_counterexample :
    siteEightCols.pageTables (scrape_page_url "stressor" "chemicals" 0) =
        some [{ ncols := 8, rows := [demoRow7 ++ ["h"]] }] ∧
    pageOutcome siteEightCols "stressor" "chemicals" 0 = .ok none ∧
    siteOnePaper.pageTables (scrape_page_url "stressor" "chemicals" 0) =
        some [{ ncols := 7, rows := [demoRow7] }] ∧
    (∃ d, pageOutcome siteOnePaper "stressor" "chemicals" 0 = .ok (some d)) := by
  refine ⟨by decide, by decide, by decide, ?_⟩
  exact ⟨⟨TABLE_COLUMNS ++ ["paper_url"], [demoRow7 ++ ["http://ext"]]⟩, by decide⟩

/-- Claim C2 (corrected).  What the code actually absorbs and what it
lets escape:
1. a transport error on the Page Extractor's table fetch is absorbed as
   "no page result";
2. a transport error on the Link Extractor's LISTING fetch is absorbed
   as an absent link sequence, which the axis-1 merge drops silently —
   the page result survives with only the 7 metadata columns, so this
   failure is NOT absorbed as "no page result";
3. a transport error on a DETAIL-page fetch (line 165, outside every try
   block) escapes `scrape_page_urls`, `scrape_page` and
   `scrape_all_papers`: the whole run aborts with the exception. -/
theorem C2_failure_absorption_amended :
    (∀ web t s n, web.pageTables (scrape_page_url t s n) = none →
      pageOutcome web t s n = .ok none) ∧
    (∀ web t s n tb ts, web.pageTables (scrape_page_url t s n) = some (tb :: ts) →
      tb.ncols = TABLE_COLUMNS.length →
      web.pageAnchors (scrape_page_urls_url t s n) = none →
      pageOutcome web t s n = .ok (some { cols := TABLE_COLUMNS, rows := tb.rows })) ∧
    (∀ web tb ts lnk lnks fuel fpath,
      web.pageTables (scrape_page_url "stressor" "chemicals" 0) = some (tb :: ts) →
      tb.ncols = TABLE_COLUMNS.length →
      web.pageAnchors (scrape_page_urls_url "stressor" "chemicals" 0) = some (lnk :: lnks) →
      web.detail (tethysUrl lnk "" "") = none →
      scrape_all_papers web (fuel + 1) fpath = .error (.py .httpError)) := by
  refine ⟨?_, ?_, ?_⟩
  · intro web t s n hpt
    simp [pageOutcome, scrape_page, hpt]
  · intro web t s n tb ts hpt hn hpa
    simp [pageOutcome, scrape_page, hpt, hn, scrape_page_urls, hpa, concatAxis1]
  · intro web tb ts lnk lnks fuel fpath hpt hn hpa hdet
    have hpo : pageOutcome web "stressor" "chemicals" 0 = .error .httpError := by
      simp [pageOutcome, scrape_page, hpt, hn, scrape_page_urls, hpa, urlLoop, hdet]
    simp [scrape_all_papers, TETHYS_TAG_SUBTAG, processTags, processSubtags, subtagLoop, hpo]

/-- Witness for C2's amended statement at concrete inputs: a dead table
fetch is absorbed; a dead listing fetch leaves a 7-column page result;
a dead detail fetch aborts the whole walker with an `HTTPError`. -/
theorem C2_failure_absorption_amended_witness :
    pageOutcome siteEmpty "stressor" "chemicals" 0 = .ok none ∧
    pageOutcome siteAnchorsDown "stressor" "chemicals" 0 =
      .ok (some { cols := TABLE_COLUMNS, rows := [demoRow7] }) ∧
    scrape_all_papers siteDetailDown 2 "w2/" = .error (.py .httpError) := by
  refine ⟨?_, ?_, ?_⟩
  · exact C2_failure_absorption_amended.1 siteEmpty "stressor" "chemicals" 0 (by decide)
  · exact C2_failure_absorption_amended.2.1 siteAnchorsDown "stressor" "chemicals" 0
      ⟨7, [demoRow7]⟩ [] (by decide) (by decide) (by decide)
  · exact C2_failure_absorption_amended.2.2 siteDetailDown ⟨7, [demoRow7]⟩ []
      "/publications/x" [] 1 "w2/" (by decide) (by decide) (by decide) (by decide)

/-- Counterexample to C2 as stated: on a site whose stressor/chemicals
page 0 has a valid table and one publication anchor whose detail page
fetch raises, `scrape_all_papers` does NOT run to normal completion — the
uncaught `HTTPError` of line 165 escapes and aborts the run. -/
theorem C2_no_escape_counterexample :
    scrape_all_papers siteDetailDown 2 "out/" = .error (.py .httpError) := by
  decide

/-- Claim C6 (confirmed): the Page Extractor returns absent exactly when
the table fetch raises a transport-level client error, when zero tables
matching "Title" exist, or when the first matching table's column count
differs from the fixed schema's; with more than one matching table it
logs an ambiguity warning; and whatever it accepts is built from the
FIRST matching table only. -/
theorem C6_page_extractor_absent_iff (web : Web) (t s : String) (n : Nat) :
    (pageOutcome web t s n = .ok none ↔
      (web.pageTables (scrape_page_url t s n) = none ∨
       web.pageTables (scrape_page_url t s n) = some [] ∨
       ∃ tb ts, web.pageTables (scrape_page_url t s n) = some (tb :: ts) ∧
         tb.ncols ≠ TABLE_COLUMNS.length)) ∧
    (∀ tb t2 ts, web.pageTables (scrape_page_url t s n) = some (tb :: t2 :: ts) →
      Warn.multipleTables (scrape_page_url t s n) ∈ (scrape_page web t s n).2) ∧
    (∀ tb ts d, web.pageTables (scrape_page_url t s n) = some (tb :: ts) →
      pageOutcome web t s n = .ok (some d) →
      ∃ urls ws, scrape_page_urls web t s n = (.ok urls, ws) ∧
        d = concatAxis1 { cols := TABLE_COLUMNS, rows := tb.rows } urls) := by
  refine ⟨⟨?_, ?_⟩, ?_, ?_⟩
  · intro h
    cases hpt : web.pageTables (scrape_page_url t s n) with
    | none => exact Or.inl rfl
    | some ts0 =>
      cases ts0 with
      | nil => exact Or.inr (Or.inl rfl)
      | cons tb ts =>
        refine Or.inr (Or.inr ⟨tb, ts, rfl, ?_⟩)
        intro hn
        cases hurl : scrape_page_urls web t s n with
        | mk res ws =>
          cases res with
          | error e =>
            rw [show pageOutcome web t s n = .error e from
              by simp [pageOutcome, scrape_page, hpt, hn, hurl]] at h
            exact absurd h (by simp)
          | ok urls =>
            rw [show pageOutcome web t s n =
                .ok (some (concatAxis1 { cols := TABLE_COLUMNS, rows := tb.rows } urls)) from
              by simp [pageOutcome, scrape_page, hpt, hn, hurl]] at h
            exact absurd h (by simp)
  · intro h
    rcases h with hpt | hpt | ⟨tb, ts, hpt, hn⟩
    · simp [pageOutcome, scrape_page, hpt]
    · simp [pageOutcome, scrape_page, hpt]
    · simp [pageOutcome, scrape_page, hpt, hn]
  · intro tb t2 ts hpt
    have hlen : (1 : Nat) < (tb :: t2 :: ts).length := by
      simp [List.length_cons]
    by_cases hn : tb.ncols = TABLE_COLUMNS.length
    · cases hurl : scrape_page_urls web t s n with
      | mk res ws =>
        cases res with
        | error e => simp [scrape_page, hpt, hn, hurl, hlen]
        | ok urls => simp [scrape_page, hpt, hn, hurl, hlen]
    · simp [scrape_page, hpt, hn, hlen]
  · intro tb ts d hpt h
    obtain ⟨tb', ts', urls, ws, h1, h2, h3, hd⟩ := scrape_page_accepted web t s n d h
    rw [hpt] at h1
    injection h1 with h1
    injection h1 with h1a h1b
    exact ⟨urls, ws, h3, by rw [hd, h1a]⟩

/-- Witness for C6 at concrete inputs: the absent-result iff at a dead
site, the multiple-tables warning, and first-table selection at a
two-table site. -/
theorem C6_page_extractor_absent_iff_witness :
    pageOutcome siteEmpty "stressor" "chemicals" 0 = .ok none ∧
    Warn.multipleTables (scrape_page_url "receptor" "bats" 0) ∈
      (scrape_page siteTwoTables "receptor" "bats" 0).2 ∧
    (∃ urls ws, scrape_page_urls siteTwoTables "receptor" "bats" 0 = (.ok urls, ws) ∧
      dfTwoTables = concatAxis1 { cols := TABLE_COLUMNS, rows := [demoRow7] } urls) := by
  refine ⟨?_, ?_, ?_⟩
  · exact (C6_page_extractor_absent_iff siteEmpty "stressor" "chemicals" 0).1.mpr
      (Or.inl (by decide))
  · exact (C6_page_extractor_absent_iff siteTwoTables "receptor" "bats" 0).2.1
      ⟨7, [demoRow7]⟩ ⟨3, [["x", "y", "z"]]⟩ [] (by decide)
  · exact (C6_page_extractor_absent_iff siteTwoTables "receptor" "bats" 0).2.2
      ⟨7, [demoRow7]⟩ [⟨3, [["x", "y", "z"]]⟩] dfTwoTables (by decide) (by decide)

/-! ## Link Extractor lemmas -/

theorem findSourceAnchor_of_has (soup : DetailPage) (txt : String)
    (h : hasSource soup txt) :
    ∃ a ∈ soup.anchors, a.text = txt ∧ findSourceAnchor soup txt = a.href ∧
      a.href.isSome := by
  obtain ⟨a0, ha0, hsome, htxt⟩ := h
  have hex : ∃ x ∈ soup.anchors, (x.href.isSome && x.text == txt) = true :=
    ⟨a0, ha0, by simp [hsome, htxt]⟩
  obtain ⟨a, hfind⟩ := Option.isSome_iff_exists.mp (List.find?_isSome.mpr hex)
  have hpa := List.find?_some hfind
  simp only [Bool.and_eq_true, beq_iff_eq] at hpa
  exact ⟨a, List.mem_of_find?_eq_some hfind, hpa.2,
    by simp [findSourceAnchor, hfind], hpa.1⟩

theorem findSourceAnchor_none (soup : DetailPage) (txt : String)
    (h : ¬ hasSource soup txt) : findSourceAnchor soup txt = none := by
  have hfind : soup.anchors.find? (fun a => a.href.isSome && a.text == txt) = none := by
    rw [List.find?_eq_none]
    intro a ha hpa
    simp only [Bool.and_eq_true, beq_iff_eq] at hpa
    exact h ⟨a, ha, hpa.1, hpa.2⟩
  simp [findSourceAnchor, hfind]

/-- Claim C7 (confirmed): detail-link resolution follows strict
precedence.  When the detail page has an anchor with href and visible
text exactly "External Link", the resolved link is such an anchor's href
(no warning); otherwise, when it has an "Access File" anchor with href,
the resolved link is such an anchor's href (no warning); otherwise the
detail-page URL itself is used and the no-source warning is logged. -/
theorem C7_detail_link_precedence (pub : String) (soup : DetailPage) :
    (hasSource soup "External Link" →
      ∃ a ∈ soup.anchors, a.text = "External Link" ∧
        a.href = some (resolveDetailLink pub soup).1 ∧
        (resolveDetailLink pub soup).2 = []) ∧
    (¬ hasSource soup "External Link" → hasSource soup "Access File" →
      ∃ a ∈ soup.anchors, a.text = "Access File" ∧
        a.href = some (resolveDetailLink pub soup).1 ∧
        (resolveDetailLink pub soup).2 = []) ∧
    (¬ hasSource soup "External Link" → ¬ hasSource soup "Access File" →
      resolveDetailLink pub soup = (pub, [Warn.noSourceLink pub])) := by
  refine ⟨?_, ?_, ?_⟩
  · intro h
    obtain ⟨a, ha, htxt, hfind, hsome⟩ := findSourceAnchor_of_has soup _ h
    obtain ⟨v, hv⟩ := Option.isSome_iff_exists.mp hsome
    rw [hv] at hfind
    exact ⟨a, ha, htxt, by simp [resolveDetailLink, hfind, hv],
      by simp [resolveDetailLink, hfind]⟩
  · intro hne h
    have hnone := findSourceAnchor_none soup "External Link" hne
    obtain ⟨a, ha, htxt, hfind, hsome⟩ := findSourceAnchor_of_has soup _ h
    obtain ⟨v, hv⟩ := Option.isSome_iff_exists.mp hsome
    rw [hv] at hfind
    exact ⟨a, ha, htxt, by simp [resolveDetailLink, hnone, hfind, hv],
      by simp [resolveDetailLink, hnone, hfind]⟩
  · intro hne1 hne2
    simp [resolveDetailLink, findSourceAnchor_none soup _ hne1,
      findSourceAnchor_none soup _ hne2]

/-- Witness for C7 at concrete detail pages: both labels present (the
"External Link" href wins), only "Access File" present (its href is
used), and neither present (detail URL fallback plus warning). -/
theorem C7_detail_link_precedence_witness :
    (hasSource soupBoth "External Link" ∧
      ∃ a ∈ soupBoth.anchors, a.text = "External Link" ∧
        a.href = some (resolveDetailLink "u" soupBoth).1 ∧
        (resolveDetailLink "u" soupBoth).2 = []) ∧
    (¬ hasSource soupAccess "External Link" ∧ hasSource soupAccess "Access File" ∧
      ∃ a ∈ soupAccess.anchors, a.text = "Access File" ∧
        a.href = some (resolveDetailLink "u" soupAccess).1 ∧
        (resolveDetailLink "u" soupAccess).2 = []) ∧
    resolveDetailLink "u" soupNone = ("u", [Warn.noSourceLink "u"]) := by
  refine ⟨⟨by decide, (C7_detail_link_precedence "u" soupBoth).1 (by decide)⟩,
    ⟨by decide, by decide,
      (C7_detail_link_precedence "u" soupAccess).2.1 (by decide) (by decide)⟩,
    (C7_detail_link_precedence "u" soupNone).2.2 (by decide) (by decide)⟩

theorem urlLoop_spec (web : Web) (hrefs : List String)
    (hall : ∀ h ∈ hrefs, (web.detail (tethysUrl h "" "")).isSome) :
    ∃ ls ws, urlLoop web hrefs = (.ok ls, ws) ∧ ls.length = hrefs.length ∧
      ∀ i, ls.get? i = (hrefs.get? i).bind
        (fun h => (web.detail (tethysUrl h "" "")).map
          (fun soup => (resolveDetailLink (tethysUrl h "" "") soup).1)) := by
  induction hrefs with
  | nil =>
    refine ⟨[], [], rfl, rfl, ?_⟩
    intro i
    cases i <;> rfl
  | cons h rest ih =>
    have hh := hall h (List.mem_cons_self h rest)
    obtain ⟨soup, hsoup⟩ := Option.isSome_iff_exists.mp hh
    obtain ⟨ls, ws, hloop, hlen, hget⟩ :=
      ih (fun x hx => hall x (List.mem_cons_of_mem h hx))
    refine ⟨(resolveDetailLink (tethysUrl h "" "") soup).1 :: ls,
      (resolveDetailLink (tethysUrl h "" "") soup).2 ++ ws, ?_, by simp [hlen], ?_⟩
    · simp only [urlLoop, hsoup, hloop]
    · intro i
      cases i with
      | zero => simp [hsoup]
      | succ i => simpa using hget i

/-- Claim C8 (confirmed): when the listing fetch succeeds and every
detail-page fetch succeeds, the Link Extractor returns exactly one
resolved link per in-site publication anchor, in anchor document order,
so the sequence's length equals the number of such anchors and its i-th
entry is the resolution of the i-th anchor. -/
theorem C8_link_sequence_order_length (web : Web) (t s : String) (n : Nat)
    (hrefs : List String)
    (ha : web.pageAnchors (scrape_page_urls_url t s n) = some hrefs)
    (hd : ∀ h ∈ hrefs, (web.detail (tethysUrl h "" "")).isSome) :
    ∃ links ws, scrape_page_urls web t s n = (.ok (some links), ws) ∧
      links.length = hrefs.length ∧
      ∀ i, links.get? i = (hrefs.get? i).bind
        (fun h => (web.detail (tethysUrl h "" "")).map
          (fun soup => (resolveDetailLink (tethysUrl h "" "") soup).1)) := by
  obtain ⟨ls, ws, hloop, hlen, hget⟩ := urlLoop_spec web hrefs hd
  exact ⟨ls, ws, by simp only [scrape_page_urls, ha, hloop], hlen, hget⟩

/-- Witness for C8 at a concrete site with two publication anchors: the
returned sequence has length 2 and resolves the anchors in order. -/
theorem C8_link_sequence_order_length_witness :
    ∃ links ws, scrape_page_urls siteTwoAnchors "stressor" "noise" 0 =
        (.ok (some links), ws) ∧
      links.length = ["/publications/a", "/publications/b"].length ∧
      links.get? 0 = some "http://e" ∧
      links.get? 1 = some (tethysUrl "/publications/b" "" "") := by
  obtain ⟨links, ws, h1, h2, h3⟩ := C8_link_sequence_order_length siteTwoAnchors
    "stressor" "noise" 0 ["/publications/a", "/publications/b"] (by decide) (by decide)
  refine ⟨links, ws, h1, h2, ?_, ?_⟩
  · rw [h3 0]
    decide
  · rw [h3 1]
    decide

/-! ## Pagination trace -/

theorem subtagLoop_trace (web : Web) (t s : String) (k : Nat) :
    ∀ (j fuel : Nat) (acc : Df) (fetched : List Nat),
    (∀ i, j ≤ i → i < j + k → ∃ d, pageOutcome web t s i = .ok (some d)) →
    pageOutcome web t s (j + k) = .ok none →
    k + 1 ≤ fuel →
    ∃ d, subtagLoop web t s fuel j acc fetched =
      .ok (d, fetched ++ List.range' j (k + 1)) := by
  induction k with
  | zero =>
    intro j fuel acc fetched _ hnone hfuel
    cases fuel with
    | zero => omega
    | succ f =>
      refine ⟨acc, ?_⟩
      unfold subtagLoop
      rw [show pageOutcome web t s j = .ok none from hnone]
      rfl
  | succ k ih =>
    intro j fuel acc fetched hsome hnone hfuel
    cases fuel with
    | zero => omega
    | succ f =>
      obtain ⟨d, hd⟩ := hsome j (Nat.le_refl j) (by omega)
      have hnone' : pageOutcome web t s (j + 1 + k) = .ok none := by
        have e : j + 1 + k = j + (k + 1) := by omega
        rw [e]
        exact hnone
      obtain ⟨dfin, hrec⟩ := ih (j + 1) f (concatAxis0 acc d) (fetched ++ [j])
        (fun i h1 h2 => hsome i (by omega) (by omega)) hnone' (by omega)
      refine ⟨dfin, ?_⟩
      unfold subtagLoop
      rw [hd]
      show subtagLoop web t s f (j + 1) (concatAxis0 acc d) (fetched ++ [j]) =
        Except.ok (dfin, fetched ++ List.range' j (k + 1 + 1))
      rw [hrec, List.range'_succ, List.append_assoc, List.singleton_append]
      rfl

/-- Claim C4 (confirmed): for every tag and subtag (in particular every
pair of the taxonomy), when `m` is the first page index whose result is
absent and the fuel covers it, the pagination loop's fetch trace is
exactly `[0, 1, ..., m]`: it starts at 0, increases strictly by 1, stops
at the first absent result, fetches nothing after it, and treats a
well-formed page with zero rows like any other present page (the
hypothesis allows the pages before `m` to be empty). -/
theorem C4_pagination_trace (web : Web) (tag subtag : String) (m fuel : Nat)
    (hsome : ∀ i, i < m → ∃ d, pageOutcome web tag subtag i = .ok (some d))
    (hnone : pageOutcome web tag subtag m = .ok none)
    (hfuel : m + 1 ≤ fuel) :
    ∃ d, subtagLoop web tag subtag fuel 0 emptyDf [] = .ok (d, List.range (m + 1)) := by
  obtain ⟨d, hd⟩ := subtagLoop_trace web tag subtag m 0 fuel emptyDf []
    (fun i _ h2 => hsome i (by omega)) (by simpa using hnone) hfuel
  refine ⟨d, ?_⟩
  rw [List.range_eq_range']
  simpa using hd

/-- Witness for C4 at a concrete site with pages 0, 1, 2 present (page 1
has zero rows) and page 3 absent: the fetch trace is `[0, 1, 2, 3]`. -/
theorem C4_pagination_trace_witness :
    (∀ i, i < 3 → ∃ d, pageOutcome siteThreePages "interactions" "attraction" i =
      .ok (some d)) ∧
    pageOutcome siteThreePages "interactions" "attraction" 3 = .ok none ∧
    ∃ d, subtagLoop siteThreePages "interactions" "attraction" 4 0 emptyDf [] =
      .ok (d, List.range 4) := by
  have hsome : ∀ i, i < 3 →
      ∃ d, pageOutcome siteThreePages "interactions" "attraction" i = .ok (some d) := by
    intro i hi
    interval_cases i
    · exact ⟨⟨TABLE_COLUMNS, [demoRow7]⟩, by decide⟩
    · exact ⟨⟨TABLE_COLUMNS, []⟩, by decide⟩
    · exact ⟨⟨TABLE_COLUMNS, [demoRow7]⟩, by decide⟩
  exact ⟨hsome, by decide, C4_pagination_trace siteThreePages "interactions" "attraction"
    3 4 hsome (by decide) (by decide)⟩

theorem cellOf_map_self (cols : List String) (r : List String)
    (hnd : cols.Nodup) (hlen : r.length = cols.length) :
    cols.map (fun c => cellOf cols r c) = r := by
  induction cols generalizing r with
  | nil =>
    cases r with
    | nil => rfl
    | cons v vs => simp at hlen
  | cons c0 cs ih =>
    cases r with
    | nil => simp at hlen
    | cons v vs =>
      have hnd' := List.nodup_cons.mp hnd
      have hlen' : vs.length = cs.length := by
        simp only [List.length_cons] at hlen
        omega
      have htail : cs.map (fun c => cellOf (c0 :: cs) (v :: vs) c) =
          cs.map (fun c => cellOf cs vs c) := by
        apply List.map_congr_left
        intro c hc
        have hne : ¬ (c0 = c) := fun h => hnd'.1 (by rw [h]; exact hc)
        simp [cellOf, hne]
      rw [List.map_cons, htail, ih vs hnd'.2 hlen']
      have hhead : cellOf (c0 :: cs) (v :: vs) c0 = v := by simp [cellOf]
      rw [hhead]

theorem concatAxis0_dfInv (a b : Df) (ha : dfInv a) (hb : dfInv b) :
    (concatAxis0 a b).rows = a.rows ++ b.rows ∧ dfInv (concatAxis0 a b) := by
  obtain ⟨acols, arows⟩ := a
  obtain ⟨bcols, brows⟩ := b
  rcases ha with ⟨hac, har⟩ | ⟨hac, har⟩ <;> rcases hb with ⟨hbc, hbr⟩ | ⟨hbc, hbr⟩ <;>
    simp only at hac hbc har hbr <;> subst hac <;> subst hbc
  · -- both empty 7-column accumulators
    subst har
    subst hbr
    refine ⟨by simp [concatAxis0], Or.inl ⟨?_, by simp [concatAxis0]⟩⟩
    show TABLE_COLUMNS ++ TABLE_COLUMNS.filter (fun c => ¬ TABLE_COLUMNS.contains c) =
      TABLE_COLUMNS
    decide
  · -- empty 7-column accumulator + full 8-column frame
    subst har
    have hcols : TABLE_COLUMNS ++ (TABLE_COLUMNS ++ ["paper_url"]).filter
        (fun c => ¬ TABLE_COLUMNS.contains c) = TABLE_COLUMNS ++ ["paper_url"] := by decide
    have hmap : ∀ r ∈ brows, (TABLE_COLUMNS ++ ["paper_url"]).map
        (fun c => cellOf (TABLE_COLUMNS ++ ["paper_url"]) r c) = r := by
      intro r hr
      exact cellOf_map_self _ r (by decide) (by rw [hbr r hr]; decide)
    have hrows : (concatAxis0 ⟨TABLE_COLUMNS, []⟩
        ⟨TABLE_COLUMNS ++ ["paper_url"], brows⟩).rows = brows := by
      simp only [concatAxis0, hcols, List.map_nil, List.nil_append]
      rw [List.map_congr_left hmap]
      exact List.map_id brows
    refine ⟨by rw [hrows]; rfl, Or.inr ⟨?_, ?_⟩⟩
    · show TABLE_COLUMNS ++ (TABLE_COLUMNS ++ ["paper_url"]).filter
        (fun c => ¬ TABLE_COLUMNS.contains c) = TABLE_COLUMNS ++ ["paper_url"]
      exact hcols
    · rw [hrows]
      exact hbr
  · -- full 8-column frame + empty 7-column accumulator
    subst hbr
    have hnew : TABLE_COLUMNS.filter
        (fun c => ¬ (TABLE_COLUMNS ++ ["paper_url"]).contains c) = [] := by decide
    have hrows : (concatAxis0 ⟨TABLE_COLUMNS ++ ["paper_url"], arows⟩
        ⟨TABLE_COLUMNS, []⟩).rows = arows := by
      simp only [concatAxis0, hnew, List.map_nil, List.append_nil]
      rw [List.map_id']
    refine ⟨by rw [hrows]; rw [List.append_nil], Or.inr ⟨?_, ?_⟩⟩
    · show (TABLE_COLUMNS ++ ["paper_url"]) ++ TABLE_COLUMNS.filter
        (fun c => ¬ (TABLE_COLUMNS ++ ["paper_url"]).contains c) = TABLE_COLUMNS ++ ["paper_url"]
      decide
    · rw [hrows]
      exact har
  · -- two full 8-column frames
    have hnew : (TABLE_COLUMNS ++ ["paper_url"]).filter
        (fun c => ¬ (TABLE_COLUMNS ++ ["paper_url"]).contains c) = [] := by decide
    have hmap : ∀ r ∈ brows, (TABLE_COLUMNS ++ ["paper_url"]).map
        (fun c => cellOf (TABLE_COLUMNS ++ ["paper_url"]) r c) = r := by
      intro r hr
      exact cellOf_map_self _ r (by decide) (by rw [hbr r hr]; decide)
    have hrows : (concatAxis0 ⟨TABLE_COLUMNS ++ ["paper_url"], arows⟩
        ⟨TABLE_COLUMNS ++ ["paper_url"], brows⟩).rows = arows ++ brows := by
      simp only [concatAxis0, hnew, List.map_nil, List.append_nil]
      rw [List.map_id', List.map_congr_left hmap, List.map_id']
    refine ⟨hrows, Or.inr ⟨?_, ?_⟩⟩
    · show (TABLE_COLUMNS ++ ["paper_url"]) ++ (TABLE_COLUMNS ++ ["paper_url"]).filter
        (fun c => ¬ (TABLE_COLUMNS ++ ["paper_url"]).contains c) = TABLE_COLUMNS ++ ["paper_url"]
      decide
    · rw [hrows]
      intro r hr
      rcases List.mem_append.mp hr with hr | hr
      · exact har r hr
      · exact hbr r hr

theorem foldl_concat_dfInv (ds : List Df) :
    ∀ acc, dfInv acc → (∀ d ∈ ds, dfInv d) →
    (ds.foldl concatAxis0 acc).rows = acc.rows ++ (ds.map Df.rows).flatten ∧
    dfInv (ds.foldl concatAxis0 acc) := by
  induction ds with
  | nil =>
    intro acc ha _
    exact ⟨by simp, ha⟩
  | cons d ds ih =>
    intro acc ha hall
    have hd := hall d (List.mem_cons_self d ds)
    obtain ⟨hrows, hinv⟩ := concatAxis0_dfInv acc d ha hd
    obtain ⟨hrows', hinv'⟩ := ih (concatAxis0 acc d) hinv
      (fun x hx => hall x (List.mem_cons_of_mem d hx))
    refine ⟨?_, hinv'⟩
    rw [List.foldl_cons, hrows', hrows, List.map_cons, List.flatten_cons,
      List.append_assoc]

theorem subtagLoop_pages (web : Web) (t s : String) (ds : List Df) :
    ∀ (j fuel : Nat) (acc : Df) (fetched : List Nat),
    (∀ i, i < ds.length → pageOutcome web t s (j + i) = .ok (some (ds.getD i emptyDf))) →
    pageOutcome web t s (j + ds.length) = .ok none →
    ds.length + 1 ≤ fuel →
    subtagLoop web t s fuel j acc fetched =
      .ok (ds.foldl concatAxis0 acc, fetched ++ List.range' j (ds.length + 1)) := by
  induction ds with
  | nil =>
    intro j fuel acc fetched _ hnone hfuel
    cases fuel with
    | zero => omega
    | succ f =>
      unfold subtagLoop
      rw [show pageOutcome web t s j = .ok none from by simpa using hnone]
      rfl
  | cons d ds ih =>
    intro j fuel acc fetched hsome hnone hfuel
    cases fuel with
    | zero => simp at hfuel
    | succ f =>
      have h0 : pageOutcome web t s j = .ok (some d) := by
        simpa using hsome 0 (by simp)
      have hsome' : ∀ i, i < ds.length →
          pageOutcome web t s (j + 1 + i) = .ok (some (ds.getD i emptyDf)) := by
        intro i hi
        have e : j + 1 + i = j + (i + 1) := by omega
        rw [e]
        simpa using hsome (i + 1) (by simpa using Nat.succ_lt_succ hi)
      have hnone' : pageOutcome web t s (j + 1 + ds.length) = .ok none := by
        have e : j + 1 + ds.length = j + (d :: ds).length := by simp; omega
        rw [e]
        exact hnone
      have hrec := ih (j + 1) f (concatAxis0 acc d) (fetched ++ [j]) hsome' hnone'
        (by simp at hfuel; omega)
      unfold subtagLoop
      rw [h0]
      show subtagLoop web t s f (j + 1) (concatAxis0 acc d) (fetched ++ [j]) =
        Except.ok ((d :: ds).foldl concatAxis0 acc,
          fetched ++ List.range' j ((d :: ds).length + 1))
      rw [hrec, List.foldl_cons]
      rw [show (d :: ds).length + 1 = (ds.length + 1) + 1 from by simp]
      rw [List.range'_succ, List.append_assoc, List.singleton_append]
      rfl

theorem processSubtags_spec (web : Web) (fuel : Nat) (fpath tag : String)
    (D : String → List Df) :
    ∀ (subs : List String) (tag_df : Df) (writes : List FileWrite),
    (∀ s ∈ subs, ∀ i, i < (D s).length →
      pageOutcome web tag s i = .ok (some ((D s).getD i emptyDf))) →
    (∀ s ∈ subs, pageOutcome web tag s ((D s).length) = .ok none) →
    (∀ s ∈ subs, (D s).length + 1 ≤ fuel) →
    processSubtags web fuel fpath tag subs tag_df writes =
      .ok (subs.foldl (fun acc s => concatAxis0 acc (subtagDfOf (D s))) tag_df,
        writes ++ subtagWritesOf D fpath tag subs) := by
  intro subs
  induction subs with
  | nil =>
    intro tag_df writes _ _ _
    simp [processSubtags, subtagWritesOf]
  | cons s rest ih =>
    intro tag_df writes h1 h2 h3
    have hloop := subtagLoop_pages web tag s (D s) 0 fuel emptyDf []
      (by simpa using h1 s (List.mem_cons_self s rest))
      (by simpa using h2 s (List.mem_cons_self s rest))
      (h3 s (List.mem_cons_self s rest))
    have hloop' : subtagLoop web tag s fuel 0 emptyDf [] =
        .ok (subtagDfOf (D s), [] ++ List.range' 0 ((D s).length + 1)) := hloop
    simp only [processSubtags, hloop']
    refine (ih (concatAxis0 tag_df (subtagDfOf (D s)))
      (writes ++ [{ path := fpath ++ tag ++ "-" ++ s ++ ".csv", df := subtagDfOf (D s) }])
      (fun x hx => h1 x (List.mem_cons_of_mem s hx))
      (fun x hx => h2 x (List.mem_cons_of_mem s hx))
      (fun x hx => h3 x (List.mem_cons_of_mem s hx))).trans ?_
    simp only [subtagWritesOf, List.map_cons, List.append_assoc, List.singleton_append]
    rfl

theorem processTags_spec (web : Web) (fuel : Nat) (fpath : String)
    (D2 : String → String → List Df) :
    ∀ (pairs : List (String × List String)) (writes : List FileWrite),
    (∀ p ∈ pairs, ∀ s ∈ p.2, ∀ i, i < (D2 p.1 s).length →
      pageOutcome web p.1 s i = .ok (some ((D2 p.1 s).getD i emptyDf))) →
    (∀ p ∈ pairs, ∀ s ∈ p.2, pageOutcome web p.1 s ((D2 p.1 s).length) = .ok none) →
    (∀ p ∈ pairs, ∀ s ∈ p.2, (D2 p.1 s).length + 1 ≤ fuel) →
    processTags web fuel fpath pairs writes =
      .ok (writes ++ (pairs.map (fun p =>
        subtagWritesOf (D2 p.1) fpath p.1 p.2 ++
          [{ path := fpath ++ p.1 ++ ".csv", df := tagDfOf (D2 p.1) p.2 }])).flatten) := by
  intro pairs
  induction pairs with
  | nil =>
    intro writes _ _ _
    simp [processTags]
  | cons p rest ih =>
    intro writes h1 h2 h3
    obtain ⟨tag, subs⟩ := p
    have hps : processSubtags web fuel fpath tag subs emptyDf writes =
        .ok (tagDfOf (D2 tag) subs, writes ++ subtagWritesOf (D2 tag) fpath tag subs) :=
      processSubtags_spec web fuel fpath tag (D2 tag) subs emptyDf writes
        (h1 (tag, subs) (List.mem_cons_self _ _))
        (h2 (tag, subs) (List.mem_cons_self _ _))
        (h3 (tag, subs) (List.mem_cons_self _ _))
    simp only [processTags, hps]
    refine (ih (writes ++ subtagWritesOf (D2 tag) fpath tag subs ++
        [{ path := fpath ++ tag ++ ".csv", df := tagDfOf (D2 tag) subs }])
      (fun q hq => h1 q (List.mem_cons_of_mem _ hq))
      (fun q hq => h2 q (List.mem_cons_of_mem _ hq))
      (fun q hq => h3 q (List.mem_cons_of_mem _ hq))).trans ?_
    simp only [List.map_cons, List.flatten_cons, List.append_assoc]

/-- Claim C9 (confirmed): row order in every output file matches
discovery order.  Given the page dataframes `D2 tag s` each pair
discovers (all fully merged and rectangular), the run succeeds, each
subtag file's dataframe rows are the concatenation of that subtag's page
rows in page order, and each tag file's rows are the concatenation of
its subtags' rows in the taxonomy's subtag-list order with the nested
order preserved. -/
theorem C9_row_order_discovery (web : Web) (fuel : Nat) (fpath : String)
    (D2 : String → String → List Df)
    (h1 : ∀ p ∈ TETHYS_TAG_SUBTAG, ∀ s ∈ p.2, ∀ i, i < (D2 p.1 s).length →
      pageOutcome web p.1 s i = .ok (some ((D2 p.1 s).getD i emptyDf)))
    (h2 : ∀ p ∈ TETHYS_TAG_SUBTAG, ∀ s ∈ p.2,
      pageOutcome web p.1 s ((D2 p.1 s).length) = .ok none)
    (h3 : ∀ p ∈ TETHYS_TAG_SUBTAG, ∀ s ∈ p.2, ∀ d ∈ D2 p.1 s,
      d.cols = TABLE_COLUMNS ++ ["paper_url"] ∧ ∀ r ∈ d.rows, r.length = 8)
    (h4 : ∀ p ∈ TETHYS_TAG_SUBTAG, ∀ s ∈ p.2, (D2 p.1 s).length + 1 ≤ fuel) :
    ∃ ws, scrape_all_papers web fuel fpath = .ok (ws, true) ∧
      (∀ p ∈ TETHYS_TAG_SUBTAG, ∀ s ∈ p.2,
        { path := fpath ++ p.1 ++ "-" ++ s ++ ".csv", df := subtagDfOf (D2 p.1 s) } ∈ ws ∧
        (subtagDfOf (D2 p.1 s)).rows = ((D2 p.1 s).map Df.rows).flatten) ∧
      (∀ p ∈ TETHYS_TAG_SUBTAG,
        { path := fpath ++ p.1 ++ ".csv", df := tagDfOf (D2 p.1) p.2 } ∈ ws ∧
        (tagDfOf (D2 p.1) p.2).rows =
          (p.2.map (fun s => ((D2 p.1 s).map Df.rows).flatten)).flatten) := by
  have hpt := processTags_spec web fuel fpath D2 TETHYS_TAG_SUBTAG [] h1 h2 h4
  have hsubInv : ∀ p ∈ TETHYS_TAG_SUBTAG, ∀ s ∈ p.2,
      dfInv (subtagDfOf (D2 p.1 s)) ∧
      (subtagDfOf (D2 p.1 s)).rows = ((D2 p.1 s).map Df.rows).flatten := by
    intro p hp s hs
    obtain ⟨hr, hi⟩ := foldl_concat_dfInv (D2 p.1 s) emptyDf (Or.inl ⟨rfl, rfl⟩)
      (fun d hd => Or.inr (h3 p hp s hs d hd))
    exact ⟨hi, by simpa using hr⟩
  refine ⟨(TETHYS_TAG_SUBTAG.map (fun p =>
      subtagWritesOf (D2 p.1) fpath p.1 p.2 ++
        [{ path := fpath ++ p.1 ++ ".csv", df := tagDfOf (D2 p.1) p.2 }])).flatten,
    by simp only [scrape_all_papers, hpt, List.nil_append], ?_, ?_⟩
  · intro p hp s hs
    refine ⟨?_, (hsubInv p hp s hs).2⟩
    refine List.mem_flatten.mpr ⟨_, List.mem_map_of_mem _ hp, ?_⟩
    refine List.mem_append_left _ ?_
    exact List.mem_map_of_mem _ hs
  · intro p hp
    constructor
    · refine List.mem_flatten.mpr ⟨_, List.mem_map_of_mem _ hp, ?_⟩
      exact List.mem_append_right _ (List.mem_singleton.mpr rfl)
    · have hfold : tagDfOf (D2 p.1) p.2 =
          (p.2.map (fun s => subtagDfOf (D2 p.1 s))).foldl concatAxis0 emptyDf := by
        rw [List.foldl_map]
        rfl
      obtain ⟨hr, _⟩ := foldl_concat_dfInv (p.2.map (fun s => subtagDfOf (D2 p.1 s)))
        emptyDf (Or.inl ⟨rfl, rfl⟩)
        (fun d hd => by
          obtain ⟨s, hs, hds⟩ := List.mem_map.mp hd
          rw [← hds]
          exact (hsubInv p hp s hs).1)
      rw [hfold, hr]
      simp only [emptyDf, List.nil_append, List.map_map]
      congr 1
      apply List.map_congr_left
      intro s hs
      exact (hsubInv p hp s hs).2

/-- Witness for C9 at a concrete site: stressor/chemicals discovers one
page with one row; its subtag file holds exactly that page's rows, and
the stressor tag file concatenates its subtags' rows in subtag order. -/
theorem C9_row_order_discovery_witness :
    ∃ ws, scrape_all_papers siteOnePaper 2 "w9/" = .ok (ws, true) ∧
      ({ path := "w9/" ++ "stressor" ++ "-" ++ "chemicals" ++ ".csv",
          df := subtagDfOf (D2W "stressor" "chemicals") } ∈ ws ∧
        (subtagDfOf (D2W "stressor" "chemicals")).rows =
          ((D2W "stressor" "chemicals").map Df.rows).flatten) ∧
      (subtagDfOf (D2W "stressor" "chemicals")).rows = [demoRow7 ++ ["http://ext"]] := by
  obtain ⟨ws, hall, hsub, htag⟩ := C9_row_order_discovery siteOnePaper 2 "w9/" D2W
    (by decide) (by decide) (by decide) (by decide)
  have h := hsub ("stressor", ["chemicals", "dynamic-device", "emf", "energy-removal",
    "lighting", "noise", "static-device"]) (by decide) "chemicals" (by decide)
  exact ⟨ws, hall, h, by decide⟩
